import Mathlib

/-!
Verification development for the acumen-chat client.

The definitions below are a shallow embedding of the TypeScript source:
the conversation and versioning state machine of `src/app/page.tsx`
(message creation, streaming accumulation, finalization, regeneration via
`handleRewrite`, version selection via `handleVersionSelect`, version
navigation via `handleVersionNavigation`, the model-with-credential
resolution, and the guards of `handleSendMessage`), the Mistral SSE
processing loop and its error mapping of `src/app/api/chat/route.ts`,
the provider catalog of `src/lib/providers.ts`, and the startup
credential synchronization of `src/app/page.tsx` over
`src/lib/storage.ts`.

Modelling conventions:
  - JavaScript objects with optional fields become structures with
    `Option` fields; `undefined` is `none`.
  - JavaScript falsiness of an optional string (absent or empty) is
    `strTruthy`.
  - Timestamps (`createdAt`, `updatedAt`) play no role in any property
    considered here and are omitted from the structures.
  - String primitives used inside proofs are re-implemented over the
    character list so that concrete instances evaluate by `decide`.
-/

namespace AcumenChat

/-! ## String primitives -/

/-- Model of the JavaScript `line.startsWith(p)` test, implemented over
character lists so that concrete instances reduce. -/
def strStartsWith (s p : String) : Bool :=
  List.isPrefixOf p.data s.data

/-- Model of the JavaScript `s.substring(n)` slice, dropping the first
`n` characters. -/
def strDrop (s : String) (n : Nat) : String :=
  String.mk (s.data.drop n)

/-- Model of the JavaScript `s.trim()`: removes leading and trailing
whitespace. -/
def strTrim (s : String) : String :=
  String.mk (((s.data.dropWhile Char.isWhitespace).reverse.dropWhile
    Char.isWhitespace).reverse)

/-- Truthiness of an optional JavaScript string: `undefined` and the
empty string are falsy, every other string is truthy. -/
def strTruthy : Option String → Bool
  | none => false
  | some s => decide (s ≠ "")

/-! ## Data model

Mirrors the message types of the repository (`AIResponseVersion`,
`Message` with optional `versions` and `currentVersionIndex`,
`hasVersions`). Roles are the literal union of the `role` field. -/

inductive Role where
  | user
  | assistant
  | system
  | data
  | function
  | tool
  deriving DecidableEq, Repr

structure AIResponseVersion where
  id : String
  content : String
  deriving DecidableEq, Repr

structure Message where
  id : String
  content : String
  role : Role
  isLoading : Option Bool := none
  versions : Option (List AIResponseVersion) := none
  currentVersionIndex : Option Nat := none
  deriving DecidableEq, Repr

/-- Type guard `hasVersions` of the message types: the `versions` field
is present and non-empty. -/
def hasVersions (m : Message) : Bool :=
  match m.versions with
  | some l => decide (l ≠ [])
  | none => false

/-- Content of the version stored at index `i`. An out-of-bounds access,
which in the browser would produce an undefined `content`, is modelled
as `""`; every theorem below only touches in-bounds indices. -/
def versionContentAt (l : List AIResponseVersion) (i : Nat) : String :=
  ((l.get? i).map AIResponseVersion.content).getD ""

/-! ## Conversation state machine operations (src/app/page.tsx) -/

/-- User message created by `handleSendMessage` (page.tsx 944-949): the
content is the input string exactly as received, with no trimming. -/
def mkUserMessage (uid input : String) : Message :=
  { id := uid, content := input, role := Role.user }

/-- Pending assistant message created by `handleSendMessage`
(page.tsx 1019-1026): empty content, `isLoading` set, no versions. -/
def mkLoadingMessage (aid : String) : Message :=
  { id := aid, content := "", role := Role.assistant, isLoading := some true }

/-- In-stream update of the pending assistant message (page.tsx 1115-1119
for the initial generation and 1398-1404 during a rewrite): the content
is replaced by the accumulated text and `isLoading` stays true. All other
fields, in particular `versions` and `currentVersionIndex`, are spread
through unchanged. -/
def streamDeltaStep (acc : String) (m : Message) : Message :=
  { m with content := acc, isLoading := some true }

/-- Accumulation of the stream deltas in arrival order (page.tsx
1102-1138: `aiMessageContent += text` on each chunk read). -/
def concatDeltas (deltas : List String) : String :=
  deltas.foldl (fun acc d => acc ++ d) ""

/-- Specification-side concatenation `d1 ++ d2 ++ ... ++ dn` of a list of
deltas, written as a right fold. -/
def deltaCat : List String → String
  | [] => ""
  | d :: ds => d ++ deltaCat ds

/-- Finalized assistant message built after the stream completes
(page.tsx 1141-1153): the accumulated content is committed as the single
version 0. -/
def finalizeSend (aid vid acc : String) : Message :=
  { id := aid, content := acc, role := Role.assistant,
    isLoading := some false,
    versions := some [{ id := vid, content := acc }],
    currentVersionIndex := some 0 }

/-- First committed state of `handleRewrite` (page.tsx 1346-1361): the
existing `versions` are kept (or the current content is frozen as the
initial version when `versions` is absent), `currentVersionIndex` is set
to the previous number of versions, the displayed content is unchanged
and `isLoading` becomes true. -/
def rewriteStart (vid : String) (m : Message) : Message :=
  { m with
    versions := some (m.versions.getD [{ id := vid, content := m.content }]),
    currentVersionIndex := some ((m.versions.map List.length).getD 0),
    isLoading := some true }

/-- Final state of `handleRewrite` (page.tsx 1408-1422): the accumulated
content is appended as a new version, `currentVersionIndex` points at it,
and `isLoading` becomes false. -/
def rewriteFinalize (vid acc : String) (m : Message) : Message :=
  { m with
    content := acc,
    versions := some (m.versions.getD [] ++ [{ id := vid, content := acc }]),
    currentVersionIndex := some ((m.versions.map List.length).getD 0),
    isLoading := some false }

/-- Per-message transformation of `handleVersionSelect`
(page.tsx 1453-1479): guarded by `hasVersions`; replaces the content by
the chosen version content and records the index. -/
def handleVersionSelect (m : Message) (i : Nat) : Message :=
  if hasVersions m then
    { m with
      content := versionContentAt (m.versions.getD []) i,
      currentVersionIndex := some i }
  else m

/-- Per-message transformation of `handleVersionNavigation`
(page.tsx 1249-1269): guarded by `hasVersions`; steps the index to
`(currentVersionIndex + 1) % versions.length` and displays that version.
In the application every message with versions also carries an index, so
the `none` branch is unreachable and modelled as the identity. -/
def handleVersionNavigation (m : Message) : Message :=
  if hasVersions m then
    match m.currentVersionIndex with
    | some i =>
      let nextIndex := (i + 1) % (m.versions.getD []).length
      { m with
        content := versionContentAt (m.versions.getD []) nextIndex,
        currentVersionIndex := some nextIndex }
    | none => m
  else m

/-! ## Send path with observable effects (src/app/page.tsx 920-1178) -/

/-- Observable effects of a UI handler: blocking notifications raised via
`toast.error` and the number of network requests issued via `fetch`. -/
structure Effects where
  toasts : List String := []
  networkCalls : Nat := 0
  deriving DecidableEq, Repr

/-- Result of `handleSendMessage`: the conversation message list and the
effects of the call. -/
structure SendResult where
  messages : List Message
  effects : Effects
  deriving DecidableEq, Repr

/-- Model of `handleSendMessage` (page.tsx 920-1178) on one conversation,
on the successful-response path. Parameters: the input string as passed
by the caller, the credential attached to the resolved model
(`selectedModelWithApiKey?.apiKey`), fresh identifiers for the user
message, the assistant message and its committed version, the current
message list of the conversation, and the list of text chunks read from
the response stream. The guards are in source order: a whitespace-only
input returns with no mutation and no effect (line 929); a missing or
empty credential returns with no mutation, a single blocking toast and a
redirect to settings (lines 935-940); otherwise the user message is
appended as typed, one network call is made, and the streamed chunks are
accumulated in order into the finalized assistant message. The
intermediate streaming states of the pending assistant message are
`mkLoadingMessage` followed by `streamDeltaStep` applications. -/
def handleSendMessage (input : String) (resolvedApiKey : Option String)
    (uid aid vid : String) (chatMessages : List Message)
    (deltas : List String) : SendResult :=
  if strTrim input = "" then
    { messages := chatMessages, effects := {} }
  else if ¬ strTruthy resolvedApiKey then
    { messages := chatMessages,
      effects :=
        { toasts := ["Please add an API key in settings to continue chatting"],
          networkCalls := 0 } }
  else
    let userMessage := mkUserMessage uid input
    let currentMessages := chatMessages ++ [userMessage]
    let acc := concatDeltas deltas
    { messages := currentMessages ++ [finalizeSend aid vid acc],
      effects := { toasts := [], networkCalls := 1 } }

/-! ## Provider catalog and model resolution -/

/-- Model reference of the provider catalog (`AIModel` in
src/lib/providers.ts, identifier fields only). -/
structure AIModel where
  id : String
  name : String
  provider : String
  deriving DecidableEq, Repr

/-- Static model catalog of `providers[..].getModels`
(src/lib/providers.ts): one entry per provider id, in registry order.
The generic OpenAI-compatible provider declares no models. -/
def providerCatalog : List (String × List AIModel) :=
  [("google",
     [⟨"gemini-2.5-pro-exp-03-25", "Gemini 2.5 Pro", "google"⟩,
      ⟨"gemini-2.0-flash", "Gemini 2.0 Flash", "google"⟩,
      ⟨"gemini-2.0-flash-lite", "Gemini 2.0 Flash Lite", "google"⟩]),
   ("anthropic",
     [⟨"claude-3-opus-20240229", "Claude 3 Opus", "anthropic"⟩,
      ⟨"claude-3-sonnet-20240229", "Claude 3 Sonnet", "anthropic"⟩,
      ⟨"claude-3-haiku-20240307", "Claude 3 Haiku", "anthropic"⟩]),
   ("openai",
     [⟨"GPT-4o", "GPT-4o", "openai"⟩,
      ⟨"GPT-4o-mini", "GPT-4o mini", "openai"⟩,
      ⟨"o3-mini", "o3-mini", "openai"⟩,
      ⟨"o1", "o1", "openai"⟩,
      ⟨"o1-pro", "o1-pro", "openai"⟩,
      ⟨"gpt-4.5-preview", "GPT-4.5", "openai"⟩]),
   ("mistral",
     [⟨"mistral-large-latest", "Mistral Large", "mistral"⟩,
      ⟨"mistral-small-latest", "Mistral Small", "mistral"⟩,
      ⟨"pixtral-large-latest", "Pixtral Large", "mistral"⟩,
      ⟨"codestral-latest", "Codestral", "mistral"⟩]),
   ("xai",
     [⟨"grok-2", "Grok 2", "xai"⟩,
      ⟨"grok-1.5", "Grok 1.5", "xai"⟩]),
   ("perplexity",
     [⟨"pplx-7b-online", "Perplexity 7B Online", "perplexity"⟩,
      ⟨"pplx-70b-online", "Perplexity 70B Online", "perplexity"⟩,
      ⟨"pplx-7b-chat", "Perplexity 7B Chat", "perplexity"⟩]),
   ("openai-compatible", [])]

/-- Catalog models of one provider id; an unknown provider id yields the
empty list, matching both a missing registry entry and an empty
`getModels` result. -/
def providerModels (p : String) : List AIModel :=
  ((providerCatalog.find? (fun q => q.1 = p)).map Prod.snd).getD []

/-- Lookup `apiKeys[provider]` in the stored credential map, modelled as
an association list in object key order. -/
def lookupKey (apiKeys : List (String × String)) (p : String) :
    Option String :=
  (apiKeys.find? (fun q => q.1 = p)).map Prod.snd

/-- Resolved model together with the credential attached to it. -/
structure ModelWithKey where
  model : AIModel
  apiKey : Option String
  deriving DecidableEq, Repr

/-- Model resolution of the Home component (page.tsx 436-561). Looks the
current model id up in the settings models, then in the catalog models of
every provider with a truthy stored key (lines 443-500); attaches
`apiKeys[provider]` (lines 503-506); and when the result is missing or
carries no truthy key, falls back to the first catalog model of the first
provider that has a truthy key (lines 517-561). The settings update
performed by the fallback is a side effect not relevant here. -/
def resolveModel (settingsModels : List AIModel)
    (apiKeys : List (String × String)) (currentModelId : String) :
    Option ModelWithKey :=
  let fromSettings := settingsModels.find? (fun m => m.id = currentModelId)
  let selectedModel :=
    match fromSettings with
    | some m => some m
    | none =>
      let pool :=
        (apiKeys.filter (fun q : String × String => q.2 ≠ "")).flatMap
          (fun q : String × String => providerModels q.1)
      pool.find? (fun m => m.id = currentModelId)
  let withKey :=
    selectedModel.map (fun m => ModelWithKey.mk m (lookupKey apiKeys m.provider))
  let needFallback :=
    match withKey with
    | none => true
    | some mk => ! strTruthy mk.apiKey
  if needFallback then
    match apiKeys.find? (fun q : String × String => q.2 ≠ "") with
    | some q =>
      match (providerModels q.1).head? with
      | some m => some (ModelWithKey.mk m (some q.2))
      | none => withKey
    | none => withKey
  else withKey

/-- Credential carried by the resolved model, as consumed by the
`handleSendMessage` guard. -/
def resolvedApiKey (settingsModels : List AIModel)
    (apiKeys : List (String × String)) (currentModelId : String) :
    Option String :=
  match resolveModel settingsModels apiKeys currentModelId with
  | some mk => mk.apiKey
  | none => none

/-! ## SSE stream processing (src/app/api/chat/route.ts 342-399) -/

/-- Innermost object of a parsed stream frame: `delta.content` may be
absent. -/
structure SSEDelta where
  content : Option String
  deriving DecidableEq, Repr

/-- One element of the `choices` array; the `delta` object may be absent. -/
structure SSEChoice where
  delta : Option SSEDelta
  deriving DecidableEq, Repr

/-- Parsed JSON payload of one SSE data frame, restricted to the path the
route accesses: `choices[0].delta.content`. -/
structure SSEFrame where
  choices : List SSEChoice
  deriving DecidableEq, Repr

/-- Extraction of the content delta from a parsed frame (route.ts
378-384): the chain `parsed.choices && parsed.choices[0] &&
parsed.choices[0].delta && parsed.choices[0].delta.content` must be
truthy, so an absent link or an empty content string yields nothing. -/
def extractDeltaContent (f : SSEFrame) : Option String :=
  match f.choices.head? with
  | none => none
  | some c =>
    match c.delta with
    | none => none
    | some d =>
      match d.content with
      | none => none
      | some s => if s = "" then none else some s

/-- Processing of one complete line of the Mistral SSE loop (route.ts
365-389), parameterized by the JSON parser `parse`, an external
collaborator; `parse data = none` models a JSON parse failure, which the
source logs and skips without aborting the stream. Lines without the
`data: ` event prefix and the `[DONE]` sentinel emit nothing. -/
def processSSELine (parse : String → Option SSEFrame) (line : String) :
    Option String :=
  if strStartsWith line "data: " then
    let data := strDrop line 6
    if data = "[DONE]" then none
    else
      match parse data with
      | none => none
      | some f => extractDeltaContent f
  else none

/-- Deltas emitted for a list of complete lines, in order (the inner
`for` loop of route.ts 365-389). The enclosing read loop only buffers
partial lines across chunk reads; the per-frame semantics lives here.
The function is total: a parse failure on a frame never raises, so the
stream always closes normally (`controller.close()`, line 393). -/
def processSSELines (parse : String → Option SSEFrame) :
    List String → List String
  | [] => []
  | line :: rest =>
    match processSSELine parse line with
    | some c => c :: processSSELines parse rest
    | none => processSSELines parse rest

/-! ## Mistral error mapping (src/app/api/chat/route.ts 311-334) -/

/-- Branch of the Mistral non-success status handler. -/
inductive MistralErrorBranch where
  | invalidKey
  | rateLimited
  | validation
  | generic
  deriving DecidableEq, Repr

/-- Branch selection of the Mistral non-success status handler: only 401,
429 and 422 are special-cased; every other status takes the generic
branch. -/
def mistralErrorBranch (status : Nat) : MistralErrorBranch :=
  if status = 401 then MistralErrorBranch.invalidKey
  else if status = 429 then MistralErrorBranch.rateLimited
  else if status = 422 then MistralErrorBranch.validation
  else MistralErrorBranch.generic

/-- Error message produced by the Mistral non-success status handler
(route.ts 322-331), with the raw status, the response body text and the
status text interpolated exactly as in the source. -/
def mistralErrorMessage (status : Nat) (statusText errorDetails : String) :
    String :=
  let base := "Mistral API error (" ++ toString status ++ ")" ++ errorDetails
  if status = 401 then
    "Invalid Mistral API key. Please check your API key in settings."
  else if status = 429 then
    "Rate limit exceeded for Mistral API. Please try again later."
  else if status = 422 then
    "Mistral API validation error (422): Check model name and message format."
      ++ errorDetails
  else if statusText ≠ "" then base ++ ": " ++ statusText
  else base

/-- Typed error classification asserted by the specification: 401/403 map
to an invalid-credential error, 429 to rate limiting, 5xx to provider
unavailability, everything else to a generic provider error. Modelled
from the specification for comparison with the code. -/
inductive SpecErrorClass where
  | invalidCredential
  | rateLimited
  | providerUnavailable
  | providerError
  deriving DecidableEq, Repr

/-- Classifier the specification claims for non-success statuses.
Modelled from the spec: the dispatcher of the source has no such typed
classification. -/
def specErrorClass (status : Nat) : SpecErrorClass :=
  if status = 401 ∨ status = 403 then SpecErrorClass.invalidCredential
  else if status = 429 then SpecErrorClass.rateLimited
  else if 500 ≤ status ∧ status < 600 then SpecErrorClass.providerUnavailable
  else SpecErrorClass.providerError

/-! ## Startup credential synchronization (src/app/page.tsx 306-406) -/

/-- Providers whose stored credential is non-empty; the specification
treats absence and the empty string as an inactive provider. -/
def effectiveKeys (m : List (String × String)) : List (String × String) :=
  m.filter (fun q => q.2 ≠ "")

/-- Cleanup applied to the credential map parsed from storage at startup
(page.tsx 336-341): entries with a falsy or whitespace-only value are
deleted before the map is written back. -/
def cleanEmptyKeys (m : List (String × String)) : List (String × String) :=
  m.filter (fun q => strTrim q.2 ≠ "")

/-- Development credentials injected on first run when no stored keys are
found in either storage location (page.tsx 356-364). -/
def testApiKeys : List (String × String) :=
  [("google", "test-google-api-key"), ("mistral", "test-mistral-api-key")]

/-- Credential write performed by the initial load effect
(page.tsx 329-365), given the map parsed directly from storage (if
present and parseable) and the map held by the storage module cache:
a parsed map is cleaned of empty keys and written back; when only the
module cache has keys nothing is written; when neither source has keys
the development test keys are written (first-run fallback). `none` means
no credential write happens. -/
def initialApiKeysWrite (direct : Option (List (String × String)))
    (moduleKeys : List (String × String)) :
    Option (List (String × String)) :=
  match direct with
  | some m => some (cleanEmptyKeys m)
  | none =>
    if moduleKeys ≠ [] then none
    else some testApiKeys

/-- Regeneration of a finalized assistant message: the composition of the
two phases of `handleRewrite`, freezing the current state and then
committing the newly streamed content `acc` as a fresh version. -/
def regenerate (vid1 vid2 acc : String) (m : Message) : Message :=
  rewriteFinalize vid2 acc (rewriteStart vid1 m)

/-- Version selection together with its observable effects: the handler
body (page.tsx 1453-1479) contains no `fetch` and raises no toast; it
only rewrites the message in the UI state and saves the chat list. -/
def handleVersionSelectFx (m : Message) (i : Nat) : Message × Effects :=
  (handleVersionSelect m i, { toasts := [], networkCalls := 0 })

/-- Concrete frame parser used to exercise the SSE loop on closed inputs:
two recognized payloads and a parse failure on everything else. -/
def parseDemo : String → Option SSEFrame := fun s =>
  if s = "ok1" then some ⟨[⟨some ⟨some "Hello"⟩⟩]⟩
  else if s = "ok2" then some ⟨[⟨some ⟨some " world"⟩⟩]⟩
  else none

/-! ## Invariants of the versioning state machine -/

/-- Invariant claimed for every message by the specification: when
`versions` is non-empty the displayed content equals the content of the
version at `currentVersionIndex`, and a loading message has no versions. -/
def claimInvariantC1 (m : Message) : Bool :=
  (if hasVersions m then
    decide (m.content =
      versionContentAt (m.versions.getD []) (m.currentVersionIndex.getD 0))
   else true)
  && (if m.isLoading = some true then ! hasVersions m else true)

/-- Invariant that actually holds of the code: it constrains only
messages that are not loading. For those, a non-empty `versions` list
comes with an in-bounds `currentVersionIndex` whose version content is
the displayed content. Loading messages are unconstrained, because a
regenerating message keeps its committed versions while streaming. -/
def finalizedInvariant (m : Message) : Bool :=
  if m.isLoading = some true then true
  else
    match m.versions with
    | none => true
    | some l =>
      if l.isEmpty then true
      else
        match m.currentVersionIndex with
        | none => false
        | some k =>
          decide (k < l.length) && decide (m.content = versionContentAt l k)

/-- Per-message operations of the conversation state machine, as applied
by the Home component handlers. -/
inductive MsgOp where
  | selectVersion (i : Nat)
  | versionNav
  | rewriteStartOp (vid : String)
  | rewriteFinalizeOp (vid acc : String)
  | deltaStep (acc : String)
  deriving DecidableEq, Repr

/-- Application of one state-machine operation to a message. -/
def applyOp : MsgOp → Message → Message
  | MsgOp.selectVersion i, m => handleVersionSelect m i
  | MsgOp.versionNav, m => handleVersionNavigation m
  | MsgOp.rewriteStartOp vid, m => rewriteStart vid m
  | MsgOp.rewriteFinalizeOp vid acc, m => rewriteFinalize vid acc m
  | MsgOp.deltaStep acc, m => streamDeltaStep acc m

lemma mapLength_getD (o : Option (List AIResponseVersion)) :
    (o.map List.length).getD 0 = (o.getD []).length := by
  cases o <;> rfl

lemma versionContentAt_concat (l : List AIResponseVersion)
    (v : AIResponseVersion) : versionContentAt (l ++ [v]) l.length = v.content := by
  simp [versionContentAt]

lemma finalizedInvariant_of_loading (m : Message)
    (h : m.isLoading = some true) : finalizedInvariant m = true := by
  simp [finalizedInvariant, h]

/-- Claim C1 counterexample: the claimed invariant fails after the
regenerate operation. Starting from a finalized assistant message with
one committed version of content "A", the first committed state of
`handleRewrite` has `isLoading = true` together with a non-empty
`versions` list, and its `currentVersionIndex` points one past the end,
so the displayed content no longer equals the indexed version content. -/
theorem c1_claimed_invariant_fails_on_regenerate :
    claimInvariantC1 (rewriteStart "v1" (finalizeSend "a0" "v0" "A")) = false := by
  decide

/-- Claim C1, amended: every message created by the send path (the user
message, the pending loading message and the finalized assistant
message) satisfies the invariant restricted to non-loading messages —
a non-empty `versions` list has an in-bounds `currentVersionIndex` whose
version content equals the displayed content — and every state-machine
operation (version selection with an in-bounds index, version
navigation, the two regeneration phases of `handleRewrite`, and the
in-stream content updates) preserves it. Loading messages are exempt:
during regeneration the streaming message keeps its previously committed
versions, with the index pointing past them until finalization. -/
theorem c1_finalized_invariant_preserved :
    (∀ uid s : String, finalizedInvariant (mkUserMessage uid s) = true) ∧
    (∀ aid : String, finalizedInvariant (mkLoadingMessage aid) = true) ∧
    (∀ aid vid acc : String, finalizedInvariant (finalizeSend aid vid acc) = true) ∧
    (∀ (op : MsgOp) (m : Message), finalizedInvariant m = true →
      (∀ i, op = MsgOp.selectVersion i → i < (m.versions.getD []).length) →
      finalizedInvariant (applyOp op m) = true) := by
  refine ⟨fun uid s => rfl, fun aid => rfl,
    fun aid vid acc => ?_, fun op m h hsel => ?_⟩
  · simp [finalizedInvariant, finalizeSend, versionContentAt]
  · cases op with
    | selectVersion i =>
      have hi := hsel i rfl
      by_cases hv : hasVersions m = true
      · have hl : ∃ l, m.versions = some l ∧ l ≠ [] := by
          unfold hasVersions at hv
          cases hm : m.versions with
          | none => rw [hm] at hv; simp at hv
          | some l => rw [hm] at hv; simp at hv; exact ⟨l, rfl, hv⟩
        obtain ⟨l, hm, hne⟩ := hl
        rw [hm] at hi
        simp only [applyOp, handleVersionSelect, hv, if_true]
        by_cases hload : m.isLoading = some true
        · exact finalizedInvariant_of_loading _ hload
        · simp only [finalizedInvariant, hm] at *
          simp only [hload, if_false, Option.getD_some] at *
          simp [List.isEmpty_iff, hne, hi]
      · simp only [applyOp, handleVersionSelect, hv]
        simpa using h
    | versionNav =>
      by_cases hv : hasVersions m = true
      · have hl : ∃ l, m.versions = some l ∧ l ≠ [] := by
          unfold hasVersions at hv
          cases hm : m.versions with
          | none => rw [hm] at hv; simp at hv
          | some l => rw [hm] at hv; simp at hv; exact ⟨l, rfl, hv⟩
        obtain ⟨l, hm, hne⟩ := hl
        have hpos : 0 < l.length := List.length_pos.mpr hne
        simp only [applyOp, handleVersionNavigation, hv, if_true]
        cases hk : m.currentVersionIndex with
        | none => simpa [hk] using h
        | some i =>
          by_cases hload : m.isLoading = some true
          · exact finalizedInvariant_of_loading _ hload
          · simp only [finalizedInvariant, hm] at *
            simp only [hload, if_false, Option.getD_some] at *
            simp [List.isEmpty_iff, hne, Nat.mod_lt _ hpos]
      · simp only [applyOp, handleVersionNavigation, hv]
        simpa using h
    | rewriteStartOp vid =>
      exact finalizedInvariant_of_loading _ rfl
    | rewriteFinalizeOp vid acc =>
      simp only [applyOp, rewriteFinalize, finalizedInvariant, mapLength_getD]
      simp [List.isEmpty_iff, versionContentAt_concat]
    | deltaStep acc =>
      exact finalizedInvariant_of_loading _ rfl

/-- Witness for the amended claim C1: the preservation part applied to a
concrete in-bounds version selection on a concrete finalized message. -/
theorem c1_finalized_invariant_preserved_witness :
    finalizedInvariant (finalizeSend "a0" "v0" "A") = true ∧
    finalizedInvariant
      (applyOp (MsgOp.selectVersion 0) (finalizeSend "a0" "v0" "A")) = true := by
  refine ⟨by decide, ?_⟩
  exact c1_finalized_invariant_preserved.2.2.2 (MsgOp.selectVersion 0)
    (finalizeSend "a0" "v0" "A") (by decide)
    (fun i hi => by cases hi; decide)

lemma foldl_append_deltaCat (s : String) (ds : List String) :
    ds.foldl (fun acc d => acc ++ d) s = s ++ deltaCat ds := by
  induction ds generalizing s with
  | nil => simp [deltaCat]
  | cons d ds ih => simp [deltaCat, ih, String.append_assoc]

lemma concatDeltas_eq_deltaCat (ds : List String) :
    concatDeltas ds = deltaCat ds := by
  simpa using foldl_append_deltaCat "" ds

/-- Claim C2: for every sequence of stream deltas d1..dn received for a
pending assistant message, the finalized message commits exactly one
version, `currentVersionIndex` points at it, and both the displayed
content and that version content equal the concatenation d1 ++ ... ++ dn
exactly, with no reordering and no dropped text. -/
theorem c2_stream_deltas_concatenated (deltas : List String)
    (input k uid aid vid : String) (msgs : List Message)
    (hin : strTrim input ≠ "") (hk : k ≠ "") :
    (handleSendMessage input (some k) uid aid vid msgs deltas).messages =
      msgs ++ [mkUserMessage uid input,
        finalizeSend aid vid (deltaCat deltas)] ∧
    ((finalizeSend aid vid (deltaCat deltas)).versions.getD []).map
      AIResponseVersion.content = [deltaCat deltas] ∧
    (finalizeSend aid vid (deltaCat deltas)).currentVersionIndex = some 0 ∧
    versionContentAt
      ((finalizeSend aid vid (deltaCat deltas)).versions.getD []) 0 =
      deltaCat deltas := by
  refine ⟨?_, rfl, rfl, rfl⟩
  simp [handleSendMessage, hin, strTruthy, hk, concatDeltas_eq_deltaCat]

/-- Witness for claim C2: the streaming scenario of the specification,
with deltas "Recur", "sion is", " when a function calls itself.". -/
theorem c2_stream_deltas_concatenated_witness :
    strTrim "Explain recursion" ≠ "" ∧ ("g-key" : String) ≠ "" ∧
    deltaCat ["Recur", "sion is", " when a function calls itself."] =
      "Recursion is when a function calls itself." ∧
    (handleSendMessage "Explain recursion" (some "g-key") "u0" "a0" "v0" []
      ["Recur", "sion is", " when a function calls itself."]).messages =
      [mkUserMessage "u0" "Explain recursion",
       finalizeSend "a0" "v0"
         (deltaCat ["Recur", "sion is", " when a function calls itself."])] := by
  refine ⟨by decide, by decide, by decide, ?_⟩
  have h := (c2_stream_deltas_concatenated
    ["Recur", "sion is", " when a function calls itself."]
    "Explain recursion" "g-key" "u0" "a0" "v0" [] (by decide) (by decide)).1
  simpa using h

/-- Claim C3 counterexample: the user message stores the input exactly as
received, not its trimmed form. The hero screen passes the raw text to
`handleSendMessage` (page.tsx 118-124), and `handleSendMessage` stores
`content: message` untrimmed (page.tsx 944-949), so sending " hi " from
the hero screen records the content " hi ", not "hi". -/
theorem c3_content_not_trimmed :
    ((handleSendMessage " hi " (some "k") "u0" "a0" "v0" [] []).messages.map
      Message.content).head? = some " hi " ∧
    strTrim " hi " = "hi" ∧ (" hi " : String) ≠ "hi" := by
  decide

/-- Claim C3, amended: for every input whose trimmed form is non-empty,
the send creates exactly one new role=user message whose content equals
the input exactly as passed to the operation (the chat input component
trims before calling, the hero screen does not); an input that is empty
or whitespace-only after trimming performs no mutation and raises no
effect. -/
theorem c3_send_message_creation (input : String) (key : Option String)
    (uid aid vid : String) (msgs : List Message) (deltas : List String) :
    (strTrim input = "" →
      handleSendMessage input key uid aid vid msgs deltas =
        { messages := msgs, effects := {} }) ∧
    (strTrim input ≠ "" → strTruthy key = true →
      (handleSendMessage input key uid aid vid msgs deltas).messages.filter
          (fun m => decide (m.role = Role.user)) =
        msgs.filter (fun m => decide (m.role = Role.user))
          ++ [mkUserMessage uid input] ∧
      (mkUserMessage uid input).content = input ∧
      (mkUserMessage uid input).role = Role.user) := by
  constructor
  · intro h
    simp [handleSendMessage, h]
  · intro h1 h2
    refine ⟨?_, rfl, rfl⟩
    simp [handleSendMessage, h1, h2, List.filter_append, mkUserMessage,
      finalizeSend]

/-- Witness for the amended claim C3 at the concrete input "Hello". -/
theorem c3_send_message_creation_witness :
    strTrim "Hello" ≠ "" ∧ strTruthy (some "k") = true ∧
    (handleSendMessage "Hello" (some "k") "u0" "a0" "v0" [] ["Hi"]).messages.filter
        (fun m => decide (m.role = Role.user)) =
      [mkUserMessage "u0" "Hello"] := by
  refine ⟨by decide, by decide, ?_⟩
  have h := (c3_send_message_creation "Hello" (some "k") "u0" "a0" "v0" []
    ["Hi"]).2 (by decide) (by decide)
  simpa using h.1

lemma versionContentAt_mem (l : List AIResponseVersion) (k : Nat)
    (hk : k < l.length) :
    versionContentAt l k ∈ l.map AIResponseVersion.content := by
  rw [versionContentAt, List.get?_eq_get hk]
  exact List.mem_map_of_mem _ (List.get_mem l k hk)

/-- Claim C4: regenerating a finalized assistant message with displayed
content C always yields, after the new stream `acc` completes, a message
whose versions contain an entry of content C, whatever `acc` is; the
displayed content becomes `acc`, the message is finalized, and when the
message already carried versions `l` the committed contents are exactly
those of `l` followed by `acc`, with `currentVersionIndex` pointing at
the new last version. Instantiated at one prior version "A" and new
stream "B" this gives versions contents ["A", "B"],
`currentVersionIndex = 1` and displayed content "B" (see the witness). -/
theorem c4_regenerate_keeps_old_content (m : Message) (vid1 vid2 acc : String)
    (hload : m.isLoading ≠ some true)
    (hne : m.versions ≠ some ([] : List AIResponseVersion))
    (hinv : finalizedInvariant m = true) :
    m.content ∈
      ((regenerate vid1 vid2 acc m).versions.getD []).map
        AIResponseVersion.content ∧
    (regenerate vid1 vid2 acc m).content = acc ∧
    (regenerate vid1 vid2 acc m).isLoading = some false ∧
    (∀ l, m.versions = some l →
      ((regenerate vid1 vid2 acc m).versions.getD []).map
          AIResponseVersion.content =
        l.map AIResponseVersion.content ++ [acc] ∧
      (regenerate vid1 vid2 acc m).currentVersionIndex = some l.length) := by
  cases hm : m.versions with
  | none =>
    refine ⟨?_, rfl, rfl, ?_⟩
    · simp [regenerate, rewriteStart, rewriteFinalize, hm]
    · intro l hl
      exact absurd hl (by simp)
  | some l =>
    have hlne : l ≠ [] := fun h => hne (by rw [hm, h])
    have hmem : m.content ∈ l.map AIResponseVersion.content := by
      have hinv2 := hinv
      simp only [finalizedInvariant, hm] at hinv2
      rw [if_neg hload] at hinv2
      rw [if_neg (by simp [List.isEmpty_iff, hlne] :
        ¬ (l.isEmpty = true))] at hinv2
      cases hk : m.currentVersionIndex with
      | none => rw [hk] at hinv2; exact absurd hinv2 (by simp)
      | some k =>
        rw [hk] at hinv2
        simp only [Bool.and_eq_true, decide_eq_true_eq] at hinv2
        rw [hinv2.2]
        exact versionContentAt_mem l k hinv2.1
    refine ⟨?_, rfl, rfl, ?_⟩
    · simp [regenerate, rewriteStart, rewriteFinalize, hm, hmem]
    · intro l2 hl2
      injection hl2 with h
      subst h
      simp [regenerate, rewriteStart, rewriteFinalize, hm]

/-- Witness for claim C4: the regeneration scenario of the specification.
A finalized message with the single committed version "A" is regenerated
with new stream "B": the committed contents become exactly ["A", "B"],
`currentVersionIndex` moves to 1 and the displayed content is "B". -/
theorem c4_regenerate_keeps_old_content_witness :
    (finalizeSend "a0" "v0" "A").isLoading ≠ some true ∧
    (finalizeSend "a0" "v0" "A").versions ≠ some [] ∧
    finalizedInvariant (finalizeSend "a0" "v0" "A") = true ∧
    ("A" : String) ∈
      ((regenerate "v1" "v2" "B" (finalizeSend "a0" "v0" "A")).versions.getD
        []).map AIResponseVersion.content ∧
    ((regenerate "v1" "v2" "B" (finalizeSend "a0" "v0" "A")).versions.getD
      []).map AIResponseVersion.content = ["A", "B"] ∧
    (regenerate "v1" "v2" "B" (finalizeSend "a0" "v0" "A")).currentVersionIndex =
      some 1 ∧
    (regenerate "v1" "v2" "B" (finalizeSend "a0" "v0" "A")).content = "B" := by
  have h := c4_regenerate_keeps_old_content (finalizeSend "a0" "v0" "A")
    "v1" "v2" "B" (by decide) (by decide) (by decide)
  exact ⟨by decide, by decide, by decide, h.1, by decide, by decide, h.2.1⟩

/-- Claim C5: selecting an in-bounds version index on a message with
versions triggers no network call and no notification, sets the content
exactly to the stored content of the chosen version and
`currentVersionIndex` to the chosen index, and is idempotent: selecting
the same index twice yields the same message state as selecting it
once. -/
theorem c5_select_version_exact_idempotent (m : Message) (i : Nat)
    (hv : hasVersions m = true) (hi : i < (m.versions.getD []).length) :
    (handleVersionSelectFx m i).2.networkCalls = 0 ∧
    (handleVersionSelectFx m i).2.toasts = [] ∧
    (∃ h : i < (m.versions.getD []).length,
      (handleVersionSelectFx m i).1.content =
        ((m.versions.getD []).get ⟨i, h⟩).content) ∧
    (handleVersionSelectFx m i).1.currentVersionIndex = some i ∧
    handleVersionSelect (handleVersionSelect m i) i = handleVersionSelect m i := by
  refine ⟨rfl, rfl, ⟨hi, ?_⟩, ?_, ?_⟩
  · simp [handleVersionSelectFx, handleVersionSelect, hv, versionContentAt,
      List.get?_eq_get hi, List.getElem?_eq_getElem hi]
  · simp [handleVersionSelectFx, handleVersionSelect, hv]
  · have hv2 : hasVersions (handleVersionSelect m i) = true := by
      simp [handleVersionSelect, hv, hasVersions] at *
      cases hm : m.versions with
      | none => rw [hm] at hv; simp [hasVersions] at hv
      | some l => simp_all [hasVersions]
    simp [handleVersionSelect, hv, hv2]

/-- Witness for claim C5: selecting version 0 on a two-version message. -/
theorem c5_select_version_witness :
    hasVersions
      { id := "a0", content := "B", role := Role.assistant,
        isLoading := some false,
        versions := some [⟨"v0", "A"⟩, ⟨"v1", "B"⟩],
        currentVersionIndex := some 1 } = true ∧
    (handleVersionSelectFx
      { id := "a0", content := "B", role := Role.assistant,
        isLoading := some false,
        versions := some [⟨"v0", "A"⟩, ⟨"v1", "B"⟩],
        currentVersionIndex := some 1 } 0).1.currentVersionIndex = some 0 ∧
    (handleVersionSelectFx
      { id := "a0", content := "B", role := Role.assistant,
        isLoading := some false,
        versions := some [⟨"v0", "A"⟩, ⟨"v1", "B"⟩],
        currentVersionIndex := some 1 } 0).1.content = "A" := by
  have h := c5_select_version_exact_idempotent
    { id := "a0", content := "B", role := Role.assistant,
      isLoading := some false,
      versions := some [⟨"v0", "A"⟩, ⟨"v1", "B"⟩],
      currentVersionIndex := some 1 } 0 (by decide) (by decide)
  exact ⟨by decide, h.2.2.2.1, by decide⟩

/-- Claim C10: on a message with a non-empty versions list of length n
and `currentVersionIndex = i`, the navigation operation moves the index
to (i + 1) % n and displays the content of that version; in particular
navigating from the last version wraps around to index 0. -/
theorem c10_version_navigation_wraps (m : Message) (i : Nat)
    (hv : hasVersions m = true) (hk : m.currentVersionIndex = some i) :
    (handleVersionNavigation m).currentVersionIndex =
      some ((i + 1) % (m.versions.getD []).length) ∧
    (handleVersionNavigation m).content =
      versionContentAt (m.versions.getD [])
        ((i + 1) % (m.versions.getD []).length) ∧
    ((i + 1) % (m.versions.getD []).length < (m.versions.getD []).length) ∧
    (i + 1 = (m.versions.getD []).length →
      (handleVersionNavigation m).currentVersionIndex = some 0) := by
  have hpos : 0 < (m.versions.getD []).length := by
    unfold hasVersions at hv
    cases hm : m.versions with
    | none => rw [hm] at hv; simp at hv
    | some l =>
      rw [hm] at hv
      simp only [decide_eq_true_eq] at hv
      simpa [List.length_pos] using hv
  refine ⟨?_, ?_, Nat.mod_lt _ hpos, ?_⟩
  · simp [handleVersionNavigation, hv, hk]
  · simp [handleVersionNavigation, hv, hk]
  · intro hwrap
    simp [handleVersionNavigation, hv, hk, hwrap, Nat.mod_self]

/-- Witness for claim C10: navigating from the last of two versions wraps
to index 0 and restores the first version content. -/
theorem c10_version_navigation_wraps_witness :
    hasVersions
      { id := "a0", content := "B", role := Role.assistant,
        isLoading := some false,
        versions := some [⟨"v0", "A"⟩, ⟨"v1", "B"⟩],
        currentVersionIndex := some 1 } = true ∧
    (handleVersionNavigation
      { id := "a0", content := "B", role := Role.assistant,
        isLoading := some false,
        versions := some [⟨"v0", "A"⟩, ⟨"v1", "B"⟩],
        currentVersionIndex := some 1 }).currentVersionIndex = some 0 ∧
    (handleVersionNavigation
      { id := "a0", content := "B", role := Role.assistant,
        isLoading := some false,
        versions := some [⟨"v0", "A"⟩, ⟨"v1", "B"⟩],
        currentVersionIndex := some 1 }).content = "A" := by
  have h := c10_version_navigation_wraps
    { id := "a0", content := "B", role := Role.assistant,
      isLoading := some false,
      versions := some [⟨"v0", "A"⟩, ⟨"v1", "B"⟩],
      currentVersionIndex := some 1 } 1 (by decide) (by decide)
  exact ⟨by decide, by simpa using h.2.2.2 (by decide), by decide⟩

/-- Claim C6 counterexample: a send attempt whose selected model has no
stored credential is not always blocked. With the settings model bound to
an Anthropic model, no Anthropic credential stored, and a Google key
present, the resolution fallback (page.tsx 517-561) silently substitutes
the first Google catalog model together with the Google key, and the
send proceeds: two messages are created, one network call is made and no
notification is shown. -/
theorem c6_fallback_bypasses_missing_credential :
    lookupKey [("google", "gk")] "anthropic" = none ∧
    resolvedApiKey [⟨"claude-3-opus-20240229", "Claude 3 Opus", "anthropic"⟩]
      [("google", "gk")] "claude-3-opus-20240229" = some "gk" ∧
    (handleSendMessage "Hello"
      (resolvedApiKey [⟨"claude-3-opus-20240229", "Claude 3 Opus", "anthropic"⟩]
        [("google", "gk")] "claude-3-opus-20240229")
      "u0" "a0" "v0" [] ["Hi"]).effects.networkCalls = 1 ∧
    (handleSendMessage "Hello"
      (resolvedApiKey [⟨"claude-3-opus-20240229", "Claude 3 Opus", "anthropic"⟩]
        [("google", "gk")] "claude-3-opus-20240229")
      "u0" "a0" "v0" [] ["Hi"]).messages.length = 2 ∧
    (handleSendMessage "Hello"
      (resolvedApiKey [⟨"claude-3-opus-20240229", "Claude 3 Opus", "anthropic"⟩]
        [("google", "gk")] "claude-3-opus-20240229")
      "u0" "a0" "v0" [] ["Hi"]).effects.toasts = [] := by
  decide

lemma strTruthy_lookupKey_of_no_keys (apiKeys : List (String × String))
    (h : ∀ q ∈ apiKeys, q.2 = "") (p : String) :
    strTruthy (lookupKey apiKeys p) = false := by
  unfold lookupKey
  cases hq : apiKeys.find? (fun q => q.1 = p) with
  | none => rfl
  | some q =>
    have hmem := List.mem_of_find?_eq_some hq
    simp [strTruthy, h q hmem]

lemma resolvedApiKey_no_keys (settingsModels : List AIModel)
    (apiKeys : List (String × String)) (mid : String)
    (h : ∀ q ∈ apiKeys, q.2 = "") :
    strTruthy (resolvedApiKey settingsModels apiKeys mid) = false := by
  have hfind : apiKeys.find? (fun q : String × String => q.2 ≠ "") = none :=
    List.find?_eq_none.mpr (fun q hq => by simp [h q hq])
  unfold resolvedApiKey resolveModel
  simp only [hfind]
  cases hsel :
      (match settingsModels.find? (fun m => m.id = mid) with
       | some m => some m
       | none =>
         ((apiKeys.filter (fun q : String × String => q.2 ≠ "")).flatMap
           (fun q : String × String => providerModels q.1)).find?
           (fun m => m.id = mid)) with
  | none => rfl
  | some m =>
    rw [if_pos]
    · exact strTruthy_lookupKey_of_no_keys apiKeys h m.provider
    · simp [strTruthy_lookupKey_of_no_keys apiKeys h m.provider]

/-- Claim C6, amended: a send attempt is blocked before any network call,
with the conversation unchanged and a single blocking notification,
whenever the resolved model — the selected model or, when its provider
has no stored credential, the fallback model taken from the first
provider that has one — carries no truthy credential; in particular
whenever no provider has a non-empty stored credential, as below. If
another provider does hold a credential, the fallback substitutes that
provider and the send proceeds (see the counterexample). -/
theorem c6_send_blocked_without_any_credential (settingsModels : List AIModel)
    (apiKeys : List (String × String)) (mid input uid aid vid : String)
    (msgs : List Message) (deltas : List String)
    (hkeys : ∀ q ∈ apiKeys, q.2 = "") (hin : strTrim input ≠ "") :
    handleSendMessage input (resolvedApiKey settingsModels apiKeys mid)
        uid aid vid msgs deltas =
      { messages := msgs,
        effects :=
          { toasts := ["Please add an API key in settings to continue chatting"],
            networkCalls := 0 } } ∧
    (handleSendMessage input (resolvedApiKey settingsModels apiKeys mid)
        uid aid vid msgs deltas).effects.toasts.length = 1 := by
  have hb := resolvedApiKey_no_keys settingsModels apiKeys mid hkeys
  constructor
  · simp [handleSendMessage, hin, hb]
  · simp [handleSendMessage, hin, hb]

/-- Witness for the amended claim C6: no provider has a non-empty key,
the user sends "Hello", and the send is blocked with one notification. -/
theorem c6_send_blocked_witness :
    (∀ q ∈ [(("anthropic" : String), ("" : String))], q.2 = "") ∧
    strTrim "Hello" ≠ "" ∧
    handleSendMessage "Hello"
        (resolvedApiKey
          [⟨"claude-3-opus-20240229", "Claude 3 Opus", "anthropic"⟩]
          [("anthropic", "")] "claude-3-opus-20240229")
        "u0" "a0" "v0" [] ["Hi"] =
      { messages := [],
        effects :=
          { toasts := ["Please add an API key in settings to continue chatting"],
            networkCalls := 0 } } := by
  refine ⟨by decide, by decide, ?_⟩
  exact (c6_send_blocked_without_any_credential
    [⟨"claude-3-opus-20240229", "Claude 3 Opus", "anthropic"⟩]
    [("anthropic", "")] "claude-3-opus-20240229" "Hello" "u0" "a0" "v0" []
    ["Hi"] (by decide) (by decide)).1

lemma processSSELines_append (parse : String → Option SSEFrame)
    (a b : List String) :
    processSSELines parse (a ++ b) =
      processSSELines parse a ++ processSSELines parse b := by
  induction a with
  | nil => rfl
  | cons line rest ih =>
    cases h : processSSELine parse line <;>
      simp [processSSELines, h, ih]

/-- Claim C7: a single malformed (unparseable) data frame embedded among
otherwise-valid frames is skipped without aborting the stream: the
emitted deltas are exactly those of the surrounding lines, in order, and
the terminating sentinel frame emits nothing and completes the stream as
success — `processSSELines` is total, mirroring the source where a parse
failure is caught, logged and skipped while the stream closes normally. -/
theorem c7_malformed_frame_skipped (parse : String → Option SSEFrame)
    (pre post : List String) (mal : String)
    (hmal : parse (strDrop mal 6) = none) :
    processSSELine parse "data: [DONE]" = none ∧
    processSSELines parse (pre ++ mal :: (post ++ ["data: [DONE]"])) =
      processSSELines parse pre ++ processSSELines parse post := by
  have hdone : processSSELine parse "data: [DONE]" = none := by
    simp only [processSSELine]
    rw [if_pos (by decide : strStartsWith "data: [DONE]" "data: " = true)]
    rw [if_pos (by decide : strDrop "data: [DONE]" 6 = "[DONE]")]
  have hmline : processSSELine parse mal = none := by
    simp only [processSSELine]
    by_cases hs : strStartsWith mal "data: " = true
    · rw [if_pos hs]
      by_cases hd : strDrop mal 6 = "[DONE]"
      · rw [if_pos hd]
      · rw [if_neg hd, hmal]
    · rw [if_neg hs]
  refine ⟨hdone, ?_⟩
  rw [processSSELines_append]
  have h2 : processSSELines parse (mal :: (post ++ ["data: [DONE]"])) =
      processSSELines parse post := by
    rw [processSSELines, hmline, processSSELines_append]
    simp [processSSELines, hdone]
  rw [h2]

/-- Witness for claim C7: one malformed frame between two valid frames
followed by the sentinel; the two valid deltas come through in order. -/
theorem c7_malformed_frame_skipped_witness :
    parseDemo (strDrop "data: bad" 6) = none ∧
    processSSELines parseDemo
        ["data: ok1", "data: bad", "data: ok2", "data: [DONE]"] =
      processSSELines parseDemo ["data: ok1"] ++
        processSSELines parseDemo ["data: ok2"] ∧
    processSSELines parseDemo
        ["data: ok1", "data: bad", "data: ok2", "data: [DONE]"] =
      ["Hello", " world"] := by
  refine ⟨by decide, ?_, by decide⟩
  exact (c7_malformed_frame_skipped parseDemo ["data: ok1"] ["data: ok2"]
    "data: bad" (by decide)).2

/-- Claim C8 counterexample: the status mapping the specification claims
does not match the code. A 403 response is classified as
`InvalidCredential` by the specification but takes the generic branch in
the code, whose message carries the raw status and status text; a 503
response is classified as `ProviderUnavailable` by the specification but
also takes the generic branch. -/
theorem c8_status_mapping_counterexample :
    specErrorClass 403 = SpecErrorClass.invalidCredential ∧
    mistralErrorBranch 403 ≠ MistralErrorBranch.invalidKey ∧
    mistralErrorBranch 403 = MistralErrorBranch.generic ∧
    mistralErrorMessage 403 "Forbidden" "" =
      "Mistral API error (403): Forbidden" ∧
    specErrorClass 503 = SpecErrorClass.providerUnavailable ∧
    mistralErrorBranch 503 = MistralErrorBranch.generic := by
  decide

/-- Claim C8, amended: the Mistral handler maps 401 to an
invalid-credential message, 429 to a rate-limited message and 422 to a
validation message; every other non-success status — including 403 and
all 5xx statuses — takes the generic branch whose message carries the raw
status, the response body snippet and the status text. -/
theorem c8_error_mapping_amended (status : Nat)
    (statusText errorDetails : String)
    (h1 : status ≠ 401) (h2 : status ≠ 429) (h3 : status ≠ 422) :
    mistralErrorBranch 401 = MistralErrorBranch.invalidKey ∧
    mistralErrorBranch 429 = MistralErrorBranch.rateLimited ∧
    mistralErrorBranch 422 = MistralErrorBranch.validation ∧
    mistralErrorBranch status = MistralErrorBranch.generic ∧
    mistralErrorMessage status statusText errorDetails =
      (if statusText ≠ "" then
        "Mistral API error (" ++ toString status ++ ")" ++ errorDetails
          ++ ": " ++ statusText
       else
        "Mistral API error (" ++ toString status ++ ")" ++ errorDetails) := by
  refine ⟨rfl, rfl, rfl, ?_, ?_⟩
  · simp [mistralErrorBranch, h1, h2, h3]
  · simp [mistralErrorMessage, h1, h2, h3]

/-- Witness for the amended claim C8 at status 503. -/
theorem c8_error_mapping_amended_witness :
    (503 : Nat) ≠ 401 ∧ (503 : Nat) ≠ 429 ∧ (503 : Nat) ≠ 422 ∧
    mistralErrorBranch 503 = MistralErrorBranch.generic ∧
    mistralErrorMessage 503 "Service Unavailable" ": upstream" =
      (if ("Service Unavailable" : String) ≠ "" then
        "Mistral API error (" ++ toString (503 : Nat) ++ ")" ++ ": upstream"
          ++ ": " ++ "Service Unavailable"
       else
        "Mistral API error (" ++ toString (503 : Nat) ++ ")" ++ ": upstream") := by
  have h := c8_error_mapping_amended 503 "Service Unavailable" ": upstream"
    (by decide) (by decide) (by decide)
  exact ⟨by decide, by decide, by decide, h.2.2.2.1, h.2.2.2.2⟩

lemma strTrim_empty : strTrim "" = "" := rfl

lemma effectiveKeys_cleanEmptyKeys (m : List (String × String))
    (h : ∀ q ∈ m, strTrim q.2 = "" → q.2 = "") :
    effectiveKeys (cleanEmptyKeys m) = effectiveKeys m := by
  induction m with
  | nil => rfl
  | cons q rest ih =>
    have hq := h q (List.mem_cons_self q rest)
    have hrest : ∀ p ∈ rest, strTrim p.2 = "" → p.2 = "" :=
      fun p hp => h p (List.mem_cons_of_mem q hp)
    by_cases h2 : q.2 = ""
    · simp [effectiveKeys, cleanEmptyKeys, h2, strTrim_empty,
        ih hrest] at *
      simpa [effectiveKeys, cleanEmptyKeys] using ih hrest
    · have h3 : strTrim q.2 ≠ "" := fun hc => h2 (hq hc)
      simp only [effectiveKeys, cleanEmptyKeys, List.filter_cons] at *
      simp [h2, h3]
      simpa [effectiveKeys, cleanEmptyKeys] using ih hrest

/-- Claim C9: the startup synchronization effect, the only place besides
the explicit settings actions that writes the credential store, never
creates, updates or clears an effective credential — its write either
preserves the set of providers with a non-empty key exactly (it only
deletes entries whose value is empty or whitespace-only), or is the
documented first-run fallback that injects the development test keys
when no credential exists in either storage location. The hypothesis
excludes stored values that are non-empty but whitespace-only, which the
settings page cannot produce since it trims keys before saving. -/
theorem c9_credentials_explicit_or_first_run
    (direct : Option (List (String × String)))
    (moduleKeys : List (String × String))
    (hws : ∀ q ∈ direct.getD [], strTrim q.2 = "" → q.2 = "") :
    ∀ w, initialApiKeysWrite direct moduleKeys = some w →
      effectiveKeys w = effectiveKeys (direct.getD []) ∨
      (direct = none ∧ moduleKeys = [] ∧ w = testApiKeys) := by
  intro w hw
  cases direct with
  | some m =>
    simp only [initialApiKeysWrite] at hw
    injection hw with hw
    subst hw
    left
    exact effectiveKeys_cleanEmptyKeys m (by simpa using hws)
  | none =>
    simp only [initialApiKeysWrite] at hw
    by_cases hm : moduleKeys = []
    · rw [if_neg (by simp [hm])] at hw
      injection hw with hw
      exact Or.inr ⟨rfl, hm, hw.symm⟩
    · rw [if_pos (by simpa using hm)] at hw
      exact absurd hw (by simp)

/-- Witness for claim C9: a stored map with one real key and one empty
key is rewritten at startup without changing the effective credentials. -/
theorem c9_credentials_witness :
    (∀ q ∈ [(("google" : String), ("gk" : String)), ("mistral", "")],
      strTrim q.2 = "" → q.2 = "") ∧
    (effectiveKeys (cleanEmptyKeys [("google", "gk"), ("mistral", "")]) =
      effectiveKeys [("google", "gk"), ("mistral", "")] ∨
     (some [(("google" : String), ("gk" : String)), ("mistral", "")] = none ∧
      ([] : List (String × String)) = [] ∧
      cleanEmptyKeys [("google", "gk"), ("mistral", "")] = testApiKeys)) := by
  refine ⟨by decide, ?_⟩
  have h := c9_credentials_explicit_or_first_run
    (some [("google", "gk"), ("mistral", "")]) [] (by decide)
    (cleanEmptyKeys [("google", "gk"), ("mistral", "")]) rfl
  simpa using h

end AcumenChat
